import Mathlib

/-!
Verification of the event-path validity resolver in
`src/app/ember_coupling/EventPathValidity.mixin.h` (Matter / CHIP).

The resolver decides whether an event read-path specifier (possibly with
cluster-id or event-id wildcards) designates at least one existing,
access-permitted concrete event on a given endpoint.  We embed the C++
functions as Lean functions over an environment `Env` that packages the
external collaborators (the ember metadata registry, the access-control
subsystem, and the required-privilege computation) together with the
build-time flag `CHIP_CONFIG_ENABLE_EVENTLIST_ATTRIBUTE`.
-/

namespace EventPathValidity

/-- Endpoint identifiers (C++ `EndpointId`). -/
abbrev EndpointId := Nat

/-- Cluster identifiers (C++ `ClusterId`). -/
abbrev ClusterId := Nat

/-- Event identifiers (C++ `EventId`). -/
abbrev EventId := Nat

/-- Access privilege levels (C++ `Access::Privilege`). -/
inductive Privilege where
  | kView
  | kProxyView
  | kOperate
  | kManage
  | kAdminister
deriving DecidableEq, Repr

/-- Request kinds of the access-control subsystem (C++ `Access::RequestType`).
Only `kEventReadRequest` is used by this resolver. -/
inductive RequestType where
  | kAttributeReadRequest
  | kAttributeWriteRequest
  | kCommandInvokeRequest
  | kEventReadRequest
deriving DecidableEq, Repr

/-- Caller identity (C++ `Access::SubjectDescriptor`); opaque to the resolver,
passed through unchanged to the access-control subsystem. -/
structure SubjectDescriptor where
  subject : Nat
deriving DecidableEq, Repr

/-- Fully concrete event path (C++ `ConcreteEventPath`). -/
structure ConcreteEventPath where
  mEndpointId : EndpointId
  mClusterId : ClusterId
  mEventId : EventId
deriving DecidableEq, Repr

/-- Concrete endpoint/cluster pair (C++ `ConcreteClusterPath`). -/
structure ConcreteClusterPath where
  mEndpointId : EndpointId
  mClusterId : ClusterId
deriving DecidableEq, Repr

/-- Access-control request path (C++ `Access::RequestPath`).  The `entityId`
field is optional; leaving it unset (`none`) denotes a wildcard entity. -/
structure RequestPath where
  cluster : ClusterId
  endpoint : EndpointId
  requestType : RequestType
  entityId : Option EventId
deriving DecidableEq, Repr

/-- Event path specifier (C++ `EventPathParams`).  A `none` component models
the wildcard sentinel value tested by `HasWildcardClusterId` /
`HasWildcardEventId`.  `mEndpointId` is carried for fidelity but the resolver
receives its endpoint as a separate concrete argument and never reads it. -/
structure EventPathParams where
  mEndpointId : Option EndpointId
  mClusterId : Option ClusterId
  mEventId : Option EventId
deriving DecidableEq, Repr

/-- Cluster metadata (C++ `EmberAfCluster`): its identifier and its declared
event list (`eventList` array together with `eventCount`). -/
structure EmberAfCluster where
  clusterId : ClusterId
  eventList : List EventId
deriving DecidableEq, Repr

/-- Endpoint metadata (C++ `EmberAfEndpointType`): the `cluster` array
together with `clusterCount`. -/
structure EndpointType where
  cluster : List EmberAfCluster
deriving DecidableEq, Repr

/-- Modelled from the spec: the external collaborators of the resolver, which
live outside this source file.  `findEndpointType` models the registry lookup
`emberAfFindEndpointType` (absent endpoints yield `none`); `findServerCluster`
models `emberAfFindServerCluster`, which considers only server-side cluster
instances; `accessCheck` models `Access::GetAccessControl().Check`, with
`true` standing for `CHIP_NO_ERROR`; `requiredPrivilegeForReadEvent` models
`RequiredPrivilege::ForReadEvent`.  `eventListEnabled` is the build-time flag
`CHIP_CONFIG_ENABLE_EVENTLIST_ATTRIBUTE`: when false the build carries no
event-list metadata. -/
structure Env where
  eventListEnabled : Bool
  findEndpointType : EndpointId → Option EndpointType
  findServerCluster : EndpointId → ClusterId → Option EmberAfCluster
  accessCheck : SubjectDescriptor → RequestPath → Privilege → Bool
  requiredPrivilegeForReadEvent : ConcreteEventPath → Privilege

/-- Linear scan of a declared event list, mirroring the `for` loop in
`ClusterSupportsEvent`: return true on the first entry equal to `eventId`. -/
def eventListLookup : List EventId → EventId → Bool
  | [], _ => false
  | e :: rest, eventId => if e = eventId then true else eventListLookup rest eventId

/-- C++ `ClusterSupportsEvent`: with event-list metadata, scan the cluster's
declared events; without it, claim support unconditionally (no way to tell). -/
def ClusterSupportsEvent (env : Env) (cluster : EmberAfCluster) (eventId : EventId) : Bool :=
  if env.eventListEnabled then
    eventListLookup cluster.eventList eventId
  else
    true

/-- C++ `CanAccessEvent` (coarse overload, compiled only when the event list
is unavailable): ask the access-control subsystem about the cluster path with
the entity left unset (wildcard) at an explicitly supplied privilege. -/
def CanAccessEventCoarse (env : Env) (aSubjectDescriptor : SubjectDescriptor)
    (aPath : ConcreteClusterPath) (aNeededPrivilege : Privilege) : Bool :=
  env.accessCheck aSubjectDescriptor
    { cluster := aPath.mClusterId
      endpoint := aPath.mEndpointId
      requestType := RequestType.kEventReadRequest
      entityId := none }
    aNeededPrivilege

/-- C++ `CanAccessEvent` (precise overload): ask the access-control subsystem
about the concrete event path at the privilege required to read that event. -/
def CanAccessEvent (env : Env) (aSubjectDescriptor : SubjectDescriptor)
    (aPath : ConcreteEventPath) : Bool :=
  env.accessCheck aSubjectDescriptor
    { cluster := aPath.mClusterId
      endpoint := aPath.mEndpointId
      requestType := RequestType.kEventReadRequest
      entityId := some aPath.mEventId }
    (env.requiredPrivilegeForReadEvent aPath)

/-- The wildcard-event loop inside `HasValidEventPathForEndpointAndCluster`:
iterate the cluster's declared events in stored order and return true at the
first one the subject can access. -/
def anyAccessibleEvent (env : Env) (aSubjectDescriptor : SubjectDescriptor)
    (aEndpoint : EndpointId) (clusterId : ClusterId) : List EventId → Bool
  | [] => false
  | eventId :: rest =>
    if CanAccessEvent env aSubjectDescriptor ⟨aEndpoint, clusterId, eventId⟩ then
      true
    else
      anyAccessibleEvent env aSubjectDescriptor aEndpoint clusterId rest

/-- C++ `HasValidEventPathForEndpointAndCluster`: resolve the event component
against one already-found cluster.  A wildcard event id expands over the
declared events (precise mode) or falls back to one coarse view-level check
(degraded mode); a concrete event id is existence-checked and then
access-checked. -/
def HasValidEventPathForEndpointAndCluster (env : Env) (aEndpoint : EndpointId)
    (aCluster : EmberAfCluster) (aEventPath : EventPathParams)
    (aSubjectDescriptor : SubjectDescriptor) : Bool :=
  match aEventPath.mEventId with
  | none =>
    if env.eventListEnabled then
      anyAccessibleEvent env aSubjectDescriptor aEndpoint aCluster.clusterId aCluster.eventList
    else
      CanAccessEventCoarse env aSubjectDescriptor ⟨aEndpoint, aCluster.clusterId⟩ Privilege.kView
  | some eventId =>
    if ClusterSupportsEvent env aCluster eventId then
      CanAccessEvent env aSubjectDescriptor ⟨aEndpoint, aCluster.clusterId, eventId⟩
    else
      false

/-- The wildcard-cluster loop inside `HasValidEventPathForEndpoint`: iterate
the endpoint's declared clusters in stored order and return true at the first
cluster containing a valid path. -/
def anyClusterHasValidPath (env : Env) (aEndpoint : EndpointId)
    (aEventPath : EventPathParams) (aSubjectDescriptor : SubjectDescriptor) :
    List EmberAfCluster → Bool
  | [] => false
  | cluster :: rest =>
    if HasValidEventPathForEndpointAndCluster env aEndpoint cluster aEventPath aSubjectDescriptor then
      true
    else
      anyClusterHasValidPath env aEndpoint aEventPath aSubjectDescriptor rest

/-- C++ `HasValidEventPathForEndpoint`: resolve the cluster component on one
concrete endpoint.  A wildcard cluster id expands over every cluster in the
endpoint's metadata (absent endpoint: false); a concrete cluster id is looked
up through the server-cluster-only lookup (absent cluster: false). -/
def HasValidEventPathForEndpoint (env : Env) (aEndpoint : EndpointId)
    (aEventPath : EventPathParams) (aSubjectDescriptor : SubjectDescriptor) : Bool :=
  match aEventPath.mClusterId with
  | none =>
    match env.findEndpointType aEndpoint with
    | none => false
    | some endpointType =>
      anyClusterHasValidPath env aEndpoint aEventPath aSubjectDescriptor endpointType.cluster
  | some clusterId =>
    match env.findServerCluster aEndpoint clusterId with
    | none => false
    | some cluster =>
      HasValidEventPathForEndpointAndCluster env aEndpoint cluster aEventPath aSubjectDescriptor

/-- One recorded call to the access-control subsystem: either the precise
per-event overload of `CanAccessEvent` or the coarse cluster-level overload. -/
inductive AccessCheckCall where
  | precise : ConcreteEventPath → AccessCheckCall
  | coarse : ConcreteClusterPath → Privilege → AccessCheckCall
deriving DecidableEq, Repr

/-- Instrumented copy of the wildcard-event loop: same control flow as
`anyAccessibleEvent`, additionally returning the access-control calls made, in
order. -/
def anyAccessibleEventChecks (env : Env) (aSubjectDescriptor : SubjectDescriptor)
    (aEndpoint : EndpointId) (clusterId : ClusterId) :
    List EventId → Bool × List AccessCheckCall
  | [] => (false, [])
  | eventId :: rest =>
    if CanAccessEvent env aSubjectDescriptor ⟨aEndpoint, clusterId, eventId⟩ then
      (true, [AccessCheckCall.precise ⟨aEndpoint, clusterId, eventId⟩])
    else
      let r := anyAccessibleEventChecks env aSubjectDescriptor aEndpoint clusterId rest
      (r.1, AccessCheckCall.precise ⟨aEndpoint, clusterId, eventId⟩ :: r.2)

/-- Instrumented copy of `HasValidEventPathForEndpointAndCluster`: same
control flow, additionally returning the access-control calls made, in
order. -/
def HasValidEventPathForEndpointAndClusterChecks (env : Env) (aEndpoint : EndpointId)
    (aCluster : EmberAfCluster) (aEventPath : EventPathParams)
    (aSubjectDescriptor : SubjectDescriptor) : Bool × List AccessCheckCall :=
  match aEventPath.mEventId with
  | none =>
    if env.eventListEnabled then
      anyAccessibleEventChecks env aSubjectDescriptor aEndpoint aCluster.clusterId aCluster.eventList
    else
      (CanAccessEventCoarse env aSubjectDescriptor ⟨aEndpoint, aCluster.clusterId⟩ Privilege.kView,
        [AccessCheckCall.coarse ⟨aEndpoint, aCluster.clusterId⟩ Privilege.kView])
  | some eventId =>
    if ClusterSupportsEvent env aCluster eventId then
      (CanAccessEvent env aSubjectDescriptor ⟨aEndpoint, aCluster.clusterId, eventId⟩,
        [AccessCheckCall.precise ⟨aEndpoint, aCluster.clusterId, eventId⟩])
    else
      (false, [])

/-- Pointwise widening of an access-control grant function: every check that
succeeded under `g1` still succeeds under `g2`. -/
def AccessWidens (g1 g2 : SubjectDescriptor → RequestPath → Privilege → Bool) : Prop :=
  ∀ s p pr, g1 s p pr = true → g2 s p pr = true

/-- Test fixture: endpoint 1 declares a single cluster 6 with events 1, 2, 3. -/
def testEndpointType : EndpointType := ⟨[⟨6, [1, 2, 3]⟩]⟩

/-- Test fixture: registry where only endpoint 1 is registered. -/
def testFindEndpointType : EndpointId → Option EndpointType :=
  fun e => if e = 1 then some testEndpointType else none

/-- Test fixture: server-cluster lookup finding cluster 6 on endpoint 1 only. -/
def testFindServerCluster : EndpointId → ClusterId → Option EmberAfCluster :=
  fun e c =>
    if e = 1 then
      if c = 6 then some ⟨6, [1, 2, 3]⟩ else none
    else none

/-- Test fixture: access-control policy denying exactly entity 1, permitting
everything else. -/
def denyEntityOne : SubjectDescriptor → RequestPath → Privilege → Bool :=
  fun _ rp _ =>
    match rp.entityId with
    | some 1 => false
    | _ => true

/-- Test fixture: access-control policy permitting everything. -/
def allowAll : SubjectDescriptor → RequestPath → Privilege → Bool :=
  fun _ _ _ => true

/-- Test fixture: access-control policy denying everything. -/
def denyAll : SubjectDescriptor → RequestPath → Privilege → Bool :=
  fun _ _ _ => false

/-- Test fixture: every event requires the view privilege. -/
def viewOnly : ConcreteEventPath → Privilege :=
  fun _ => Privilege.kView

/-- Test fixture: precise-mode environment (event lists available) with the
deny-entity-1 policy. -/
def testEnvPrec : Env :=
  ⟨true, testFindEndpointType, testFindServerCluster, denyEntityOne, viewOnly⟩

/-- Test fixture: degraded-mode environment (no event-list metadata) with the
deny-entity-1 policy. -/
def testEnvDeg : Env :=
  ⟨false, testFindEndpointType, testFindServerCluster, denyEntityOne, viewOnly⟩

/-- Test fixture: precise-mode environment permitting everything. -/
def testEnvAllow : Env :=
  ⟨true, testFindEndpointType, testFindServerCluster, allowAll, viewOnly⟩

/-- Test fixture: precise-mode environment denying everything. -/
def testEnvDeny : Env :=
  ⟨true, testFindEndpointType, testFindServerCluster, denyAll, viewOnly⟩

/-- Test fixture: a second, definitionally separate copy of `testEnvAllow`. -/
def testEnvAllowCopy : Env :=
  ⟨true, testFindEndpointType, testFindServerCluster, allowAll, viewOnly⟩

/-- Test fixture: registry where endpoint 1 lists a client-only cluster 6
declaring event 0: the cluster appears in the endpoint's cluster list but the
server-cluster lookup does not return it. -/
def envClientOnly : Env :=
  ⟨true, fun e => if e = 1 then some ⟨[⟨6, [0]⟩]⟩ else none, fun _ _ => none, allowAll, viewOnly⟩

/-- Test fixture: an arbitrary subject. -/
def testSubject : SubjectDescriptor := ⟨0⟩

/-- The linear event-list scan finds exactly the members of the list. -/
theorem eventListLookup_iff (l : List EventId) (eventId : EventId) :
    eventListLookup l eventId = true ↔ eventId ∈ l := by
  induction l with
  | nil => simp [eventListLookup]
  | cons e rest ih =>
    simp only [eventListLookup, List.mem_cons]
    by_cases h : e = eventId
    · simp [h]
    · rw [if_neg h, ih]
      constructor
      · exact Or.inr
      · rintro (h1 | h1)
        · exact absurd h1.symm h
        · exact h1

/-- `ClusterSupportsEvent` holds exactly when the event is declared, or the
build carries no event-list metadata. -/
theorem clusterSupportsEvent_iff (env : Env) (cl : EmberAfCluster) (ev : EventId) :
    ClusterSupportsEvent env cl ev = true ↔
      (env.eventListEnabled = true → ev ∈ cl.eventList) := by
  unfold ClusterSupportsEvent
  by_cases hE : env.eventListEnabled = true
  · simp [hE, eventListLookup_iff]
  · simp [hE]

/-- The wildcard-event loop succeeds exactly when some listed event passes the
precise access check. -/
theorem anyAccessibleEvent_iff (env : Env) (subj : SubjectDescriptor)
    (e : EndpointId) (cid : ClusterId) (l : List EventId) :
    anyAccessibleEvent env subj e cid l = true ↔
      ∃ ev, ev ∈ l ∧ CanAccessEvent env subj ⟨e, cid, ev⟩ = true := by
  induction l with
  | nil => simp [anyAccessibleEvent]
  | cons ev rest ih =>
    simp only [anyAccessibleEvent]
    by_cases h : CanAccessEvent env subj ⟨e, cid, ev⟩ = true
    · rw [if_pos h]
      exact iff_of_true rfl ⟨ev, List.mem_cons_self ev rest, h⟩
    · rw [if_neg h, ih]
      constructor
      · rintro ⟨a, ha, hp⟩
        exact ⟨a, List.mem_cons_of_mem ev ha, hp⟩
      · rintro ⟨a, ha, hp⟩
        rcases List.mem_cons.mp ha with rfl | h2
        · exact absurd hp h
        · exact ⟨a, h2, hp⟩

/-- The wildcard-cluster loop succeeds exactly when some listed cluster has a
valid path. -/
theorem anyClusterHasValidPath_iff (env : Env) (e : EndpointId)
    (p : EventPathParams) (subj : SubjectDescriptor) (l : List EmberAfCluster) :
    anyClusterHasValidPath env e p subj l = true ↔
      ∃ cl, cl ∈ l ∧ HasValidEventPathForEndpointAndCluster env e cl p subj = true := by
  induction l with
  | nil => simp [anyClusterHasValidPath]
  | cons cl rest ih =>
    simp only [anyClusterHasValidPath]
    by_cases h : HasValidEventPathForEndpointAndCluster env e cl p subj = true
    · rw [if_pos h]
      exact iff_of_true rfl ⟨cl, List.mem_cons_self cl rest, h⟩
    · rw [if_neg h, ih]
      constructor
      · rintro ⟨a, ha, hp⟩
        exact ⟨a, List.mem_cons_of_mem cl ha, hp⟩
      · rintro ⟨a, ha, hp⟩
        rcases List.mem_cons.mp ha with rfl | h2
        · exact absurd hp h
        · exact ⟨a, h2, hp⟩

/-- The instrumented wildcard-event loop computes the same boolean as the
plain one. -/
theorem anyAccessibleEventChecks_fst (env : Env) (subj : SubjectDescriptor)
    (e : EndpointId) (cid : ClusterId) (l : List EventId) :
    (anyAccessibleEventChecks env subj e cid l).1 = anyAccessibleEvent env subj e cid l := by
  induction l with
  | nil => rfl
  | cons ev rest ih =>
    simp only [anyAccessibleEventChecks, anyAccessibleEvent]
    by_cases h : CanAccessEvent env subj ⟨e, cid, ev⟩ = true
    · rw [if_pos h, if_pos h]
    · rw [if_neg h, if_neg h]
      exact ih

/-- The instrumented cluster-level resolver computes the same boolean as the
plain one. -/
theorem hasValidChecks_fst (env : Env) (e : EndpointId) (cl : EmberAfCluster)
    (p : EventPathParams) (subj : SubjectDescriptor) :
    (HasValidEventPathForEndpointAndClusterChecks env e cl p subj).1 =
      HasValidEventPathForEndpointAndCluster env e cl p subj := by
  rcases p with ⟨mep, mc, me⟩
  cases me with
  | none =>
    simp only [HasValidEventPathForEndpointAndClusterChecks,
      HasValidEventPathForEndpointAndCluster]
    by_cases hE : env.eventListEnabled = true
    · rw [if_pos hE, if_pos hE]
      exact anyAccessibleEventChecks_fst env subj e cl.clusterId cl.eventList
    · rw [if_neg hE, if_neg hE]
  | some eventId =>
    simp only [HasValidEventPathForEndpointAndClusterChecks,
      HasValidEventPathForEndpointAndCluster]
    by_cases hS : ClusterSupportsEvent env cl eventId = true
    · rw [if_pos hS, if_pos hS]
    · rw [if_neg hS, if_neg hS]

/-- Cluster-level resolution of a wildcard event id in precise mode succeeds
exactly when some declared event passes the precise access check. -/
theorem hasValidCluster_wildcard_iff (env : Env) (hE : env.eventListEnabled = true)
    (e : EndpointId) (cl : EmberAfCluster) (subj : SubjectDescriptor)
    (mep : Option EndpointId) (mc : Option ClusterId) :
    HasValidEventPathForEndpointAndCluster env e cl ⟨mep, mc, none⟩ subj = true ↔
      ∃ ev, ev ∈ cl.eventList ∧ CanAccessEvent env subj ⟨e, cl.clusterId, ev⟩ = true := by
  simp [HasValidEventPathForEndpointAndCluster, hE, anyAccessibleEvent_iff]

/-- Cluster-level resolution of a concrete event id in precise mode succeeds
exactly when the event is declared and passes the precise access check. -/
theorem hasValidCluster_concrete_iff (env : Env) (hE : env.eventListEnabled = true)
    (e : EndpointId) (cl : EmberAfCluster) (ev : EventId) (subj : SubjectDescriptor)
    (mep : Option EndpointId) (mc : Option ClusterId) :
    HasValidEventPathForEndpointAndCluster env e cl ⟨mep, mc, some ev⟩ subj = true ↔
      ev ∈ cl.eventList ∧ CanAccessEvent env subj ⟨e, cl.clusterId, ev⟩ = true := by
  simp only [HasValidEventPathForEndpointAndCluster]
  by_cases hS : ClusterSupportsEvent env cl ev = true
  · rw [if_pos hS]
    have hd := (clusterSupportsEvent_iff env cl ev).mp hS hE
    simp [hd]
  · rw [if_neg hS]
    constructor
    · intro h
      exact absurd h Bool.false_ne_true
    · rintro ⟨hd, _⟩
      exact absurd ((clusterSupportsEvent_iff env cl ev).mpr fun _ => hd) hS

/-- Claim C1: for a fully concrete (endpoint, cluster, event) specifier, the
top-level resolution returns true iff the server-cluster lookup finds the
cluster, the event is declared by that cluster's metadata (or the build
carries no event-list metadata, in which case existence is assumed), and the
access-control subsystem grants the privilege required for reading that exact
event; in every other case it returns false. -/
theorem concrete_path_resolution_iff (env : Env) (e : EndpointId) (c : ClusterId)
    (ev : EventId) (subj : SubjectDescriptor) (mep : Option EndpointId) :
    HasValidEventPathForEndpoint env e ⟨mep, some c, some ev⟩ subj = true ↔
      ∃ cl, env.findServerCluster e c = some cl ∧
        (env.eventListEnabled = true → ev ∈ cl.eventList) ∧
        CanAccessEvent env subj ⟨e, cl.clusterId, ev⟩ = true := by
  cases hfs : env.findServerCluster e c with
  | none => simp [HasValidEventPathForEndpoint, hfs]
  | some cl =>
    simp only [HasValidEventPathForEndpoint, hfs, Option.some.injEq]
    rw [show (∃ cl', cl = cl' ∧ (env.eventListEnabled = true → ev ∈ cl'.eventList) ∧
        CanAccessEvent env subj ⟨e, cl'.clusterId, ev⟩ = true) ↔
        ((env.eventListEnabled = true → ev ∈ cl.eventList) ∧
          CanAccessEvent env subj ⟨e, cl.clusterId, ev⟩ = true) from
      ⟨fun ⟨cl', hq, hp⟩ => hq ▸ hp, fun hp => ⟨cl, rfl, hp⟩⟩]
    simp only [HasValidEventPathForEndpointAndCluster]
    by_cases hS : ClusterSupportsEvent env cl ev = true
    · rw [if_pos hS]
      have hd := (clusterSupportsEvent_iff env cl ev).mp hS
      exact ⟨fun h => ⟨hd, h⟩, fun h => h.2⟩
    · rw [if_neg hS]
      constructor
      · intro h
        exact absurd h Bool.false_ne_true
      · rintro ⟨hd, _⟩
        exact absurd ((clusterSupportsEvent_iff env cl ev).mpr hd) hS

/-- Witness for C1 at a concrete precise-mode environment. -/
theorem concrete_path_resolution_iff_witness :
    HasValidEventPathForEndpoint testEnvPrec 1 ⟨none, some 6, some 2⟩ testSubject = true ↔
      ∃ cl, testEnvPrec.findServerCluster 1 6 = some cl ∧
        (testEnvPrec.eventListEnabled = true → 2 ∈ cl.eventList) ∧
        CanAccessEvent testEnvPrec testSubject ⟨1, cl.clusterId, 2⟩ = true :=
  concrete_path_resolution_iff testEnvPrec 1 6 2 testSubject none

/-- Claim C2: with event-list metadata present, a specifier containing a
cluster-id or event-id wildcard resolves to the logical OR, over all concrete
paths obtained by expanding the wildcards against the endpoint's declared
clusters and each cluster's declared events, of the per-concrete-path
predicate (declared and access-permitted); in particular a wildcard event
query against a cluster declaring no events returns false. -/
theorem wildcard_resolution_eq_or (env : Env) (hE : env.eventListEnabled = true)
    (e : EndpointId) (subj : SubjectDescriptor) (mep : Option EndpointId) :
    (∀ c, HasValidEventPathForEndpoint env e ⟨mep, some c, none⟩ subj = true ↔
        ∃ cl, env.findServerCluster e c = some cl ∧
          ∃ ev, ev ∈ cl.eventList ∧ CanAccessEvent env subj ⟨e, cl.clusterId, ev⟩ = true) ∧
      (∀ ev, HasValidEventPathForEndpoint env e ⟨mep, none, some ev⟩ subj = true ↔
        ∃ et, env.findEndpointType e = some et ∧
          ∃ cl, cl ∈ et.cluster ∧ ev ∈ cl.eventList ∧
            CanAccessEvent env subj ⟨e, cl.clusterId, ev⟩ = true) ∧
      (HasValidEventPathForEndpoint env e ⟨mep, none, none⟩ subj = true ↔
        ∃ et, env.findEndpointType e = some et ∧
          ∃ cl, cl ∈ et.cluster ∧ ∃ ev, ev ∈ cl.eventList ∧
            CanAccessEvent env subj ⟨e, cl.clusterId, ev⟩ = true) ∧
      ∀ cl mc, cl.eventList = [] →
        HasValidEventPathForEndpointAndCluster env e cl ⟨mep, mc, none⟩ subj = false := by
  refine ⟨?_, ?_, ?_, ?_⟩
  · intro c
    cases hfs : env.findServerCluster e c with
    | none => simp [HasValidEventPathForEndpoint, hfs]
    | some cl =>
      simp only [HasValidEventPathForEndpoint, hfs, Option.some.injEq]
      rw [hasValidCluster_wildcard_iff env hE e cl subj mep (some c)]
      constructor
      · intro hp
        exact ⟨cl, rfl, hp⟩
      · rintro ⟨cl', hq, hp⟩
        exact hq ▸ hp
  · intro ev
    cases hft : env.findEndpointType e with
    | none => simp [HasValidEventPathForEndpoint, hft]
    | some et =>
      simp only [HasValidEventPathForEndpoint, hft, Option.some.injEq]
      rw [anyClusterHasValidPath_iff]
      constructor
      · rintro ⟨cl, hm, hp⟩
        rw [hasValidCluster_concrete_iff env hE e cl ev subj mep none] at hp
        exact ⟨et, rfl, cl, hm, hp.1, hp.2⟩
      · rintro ⟨et', hq, cl, hm, hd, hp⟩
        cases hq
        exact ⟨cl, hm, (hasValidCluster_concrete_iff env hE e cl ev subj mep none).mpr ⟨hd, hp⟩⟩
  · cases hft : env.findEndpointType e with
    | none => simp [HasValidEventPathForEndpoint, hft]
    | some et =>
      simp only [HasValidEventPathForEndpoint, hft, Option.some.injEq]
      rw [anyClusterHasValidPath_iff]
      constructor
      · rintro ⟨cl, hm, hp⟩
        rw [hasValidCluster_wildcard_iff env hE e cl subj mep none] at hp
        exact ⟨et, rfl, cl, hm, hp⟩
      · rintro ⟨et', hq, cl, hm, hp⟩
        cases hq
        exact ⟨cl, hm, (hasValidCluster_wildcard_iff env hE e cl subj mep none).mpr hp⟩
  · intro cl mc hnil
    simp [HasValidEventPathForEndpointAndCluster, hE, hnil, anyAccessibleEvent]

/-- Witness for C2 at a concrete precise-mode environment. -/
theorem wildcard_resolution_eq_or_witness :
    testEnvPrec.eventListEnabled = true ∧
      ((∀ c, HasValidEventPathForEndpoint testEnvPrec 1 ⟨none, some c, none⟩ testSubject = true ↔
          ∃ cl, testEnvPrec.findServerCluster 1 c = some cl ∧
            ∃ ev, ev ∈ cl.eventList ∧
              CanAccessEvent testEnvPrec testSubject ⟨1, cl.clusterId, ev⟩ = true) ∧
        (∀ ev, HasValidEventPathForEndpoint testEnvPrec 1 ⟨none, none, some ev⟩ testSubject = true ↔
          ∃ et, testEnvPrec.findEndpointType 1 = some et ∧
            ∃ cl, cl ∈ et.cluster ∧ ev ∈ cl.eventList ∧
              CanAccessEvent testEnvPrec testSubject ⟨1, cl.clusterId, ev⟩ = true) ∧
        (HasValidEventPathForEndpoint testEnvPrec 1 ⟨none, none, none⟩ testSubject = true ↔
          ∃ et, testEnvPrec.findEndpointType 1 = some et ∧
            ∃ cl, cl ∈ et.cluster ∧ ∃ ev, ev ∈ cl.eventList ∧
              CanAccessEvent testEnvPrec testSubject ⟨1, cl.clusterId, ev⟩ = true) ∧
        ∀ cl mc, cl.eventList = [] →
          HasValidEventPathForEndpointAndCluster testEnvPrec 1 cl ⟨none, mc, none⟩ testSubject = false) :=
  ⟨rfl, wildcard_resolution_eq_or testEnvPrec rfl 1 testSubject none⟩

/-- Claim C3: when the build carries no event-list metadata, a wildcard event
specifier over a found cluster resolves to exactly one coarse access check on
the (endpoint, cluster) pair at the baseline view privilege with the entity
left unset, independent of which events actually exist. -/
theorem degraded_wildcard_eq_coarse (env : Env) (hE : env.eventListEnabled = false)
    (e : EndpointId) (subj : SubjectDescriptor) (mep : Option EndpointId)
    (mc : Option ClusterId) :
    (∀ cl, HasValidEventPathForEndpointAndCluster env e cl ⟨mep, mc, none⟩ subj =
        CanAccessEventCoarse env subj ⟨e, cl.clusterId⟩ Privilege.kView) ∧
      (∀ c cl, env.findServerCluster e c = some cl →
        HasValidEventPathForEndpoint env e ⟨mep, some c, none⟩ subj =
          CanAccessEventCoarse env subj ⟨e, cl.clusterId⟩ Privilege.kView) ∧
      ∀ cl cl', cl.clusterId = cl'.clusterId →
        HasValidEventPathForEndpointAndCluster env e cl ⟨mep, mc, none⟩ subj =
          HasValidEventPathForEndpointAndCluster env e cl' ⟨mep, mc, none⟩ subj := by
  have hcl : ∀ (mc2 : Option ClusterId) cl,
      HasValidEventPathForEndpointAndCluster env e cl ⟨mep, mc2, none⟩ subj =
        CanAccessEventCoarse env subj ⟨e, cl.clusterId⟩ Privilege.kView := by
    intro mc2 cl
    simp [HasValidEventPathForEndpointAndCluster, hE]
  refine ⟨hcl mc, ?_, ?_⟩
  · intro c cl hfs
    simp only [HasValidEventPathForEndpoint, hfs]
    exact hcl (some c) cl
  · intro cl cl' hcc
    rw [hcl mc cl, hcl mc cl', hcc]

/-- Witness for C3 at a concrete degraded-mode environment. -/
theorem degraded_wildcard_eq_coarse_witness :
    testEnvDeg.eventListEnabled = false ∧
      ((∀ cl, HasValidEventPathForEndpointAndCluster testEnvDeg 1 cl ⟨none, none, none⟩ testSubject =
          CanAccessEventCoarse testEnvDeg testSubject ⟨1, cl.clusterId⟩ Privilege.kView) ∧
        (∀ c cl, testEnvDeg.findServerCluster 1 c = some cl →
          HasValidEventPathForEndpoint testEnvDeg 1 ⟨none, some c, none⟩ testSubject =
            CanAccessEventCoarse testEnvDeg testSubject ⟨1, cl.clusterId⟩ Privilege.kView) ∧
        ∀ cl cl', cl.clusterId = cl'.clusterId →
          HasValidEventPathForEndpointAndCluster testEnvDeg 1 cl ⟨none, none, none⟩ testSubject =
            HasValidEventPathForEndpointAndCluster testEnvDeg 1 cl' ⟨none, none, none⟩ testSubject) :=
  ⟨rfl, degraded_wildcard_eq_coarse testEnvDeg rfl 1 testSubject none none⟩

/-- Claim C4: the instrumented cluster-level resolver agrees with the plain
one, and on a concrete event id that the existence check rejects it returns
false with an empty list of access-control calls: no permission check is
invoked for a path proven not to exist. -/
theorem nonexistent_event_no_access_check :
    (∀ env e cl p subj,
        (HasValidEventPathForEndpointAndClusterChecks env e cl p subj).1 =
          HasValidEventPathForEndpointAndCluster env e cl p subj) ∧
      ∀ env e cl ev subj mep mc, ClusterSupportsEvent env cl ev = false →
        HasValidEventPathForEndpointAndClusterChecks env e cl ⟨mep, mc, some ev⟩ subj =
          (false, []) := by
  refine ⟨hasValidChecks_fst, ?_⟩
  intro env e cl ev subj mep mc hns
  simp [HasValidEventPathForEndpointAndClusterChecks, hns]

/-- Witness for C4: event 9 is not declared by the test cluster, so the
instrumented resolver returns false with no access-control calls. -/
theorem nonexistent_event_no_access_check_witness :
    ClusterSupportsEvent testEnvPrec ⟨6, [1, 2, 3]⟩ 9 = false ∧
      HasValidEventPathForEndpointAndClusterChecks testEnvPrec 1 ⟨6, [1, 2, 3]⟩
          ⟨some 1, some 6, some 9⟩ testSubject = (false, []) :=
  ⟨rfl, nonexistent_event_no_access_check.2 testEnvPrec 1 ⟨6, [1, 2, 3]⟩ 9 testSubject
    (some 1) (some 6) rfl⟩

/-- Claim C5: any specifier against a non-registered endpoint resolves to
false, regardless of wildcarding and of the subject. -/
theorem absent_endpoint_false (env : Env) (e : EndpointId)
    (h1 : env.findEndpointType e = none)
    (h2 : ∀ c, env.findServerCluster e c = none) :
    ∀ p subj, HasValidEventPathForEndpoint env e p subj = false := by
  intro p subj
  rcases p with ⟨mep, mc, me⟩
  cases mc with
  | none => simp [HasValidEventPathForEndpoint, h1]
  | some c => simp [HasValidEventPathForEndpoint, h2 c]

/-- Witness for C5: endpoint 2 is not registered in the test registry. -/
theorem absent_endpoint_false_witness :
    testEnvPrec.findEndpointType 2 = none ∧
      (∀ c, testEnvPrec.findServerCluster 2 c = none) ∧
      ∀ p subj, HasValidEventPathForEndpoint testEnvPrec 2 p subj = false := by
  have h2 : ∀ c, testEnvPrec.findServerCluster 2 c = none := by
    intro c
    simp [testEnvPrec, testFindServerCluster]
  exact ⟨rfl, h2, absent_endpoint_false testEnvPrec 2 rfl h2⟩

/-- Claim C6: the instrumented cluster-level resolver agrees with the plain
one, and on the scenario of a cluster declaring events [1 (denied),
2 (permitted), 3 (permitted)] a wildcard event query makes exactly the two
access-control calls for events 1 and 2, in stored order, and returns true:
evaluation stops at the first permitted event. -/
theorem wildcard_short_circuit :
    (∀ env e cl p subj,
        (HasValidEventPathForEndpointAndClusterChecks env e cl p subj).1 =
          HasValidEventPathForEndpointAndCluster env e cl p subj) ∧
      HasValidEventPathForEndpointAndClusterChecks testEnvPrec 1 ⟨6, [1, 2, 3]⟩
          ⟨some 1, some 6, none⟩ testSubject =
        (true, [AccessCheckCall.precise ⟨1, 6, 1⟩, AccessCheckCall.precise ⟨1, 6, 2⟩]) :=
  ⟨hasValidChecks_fst, rfl⟩

/-- Widening the access-control grants preserves success of the precise
per-event access check. -/
theorem canAccessEvent_mono (env1 env2 : Env)
    (h4 : env1.requiredPrivilegeForReadEvent = env2.requiredPrivilegeForReadEvent)
    (hA : AccessWidens env1.accessCheck env2.accessCheck)
    (subj : SubjectDescriptor) (path : ConcreteEventPath) :
    CanAccessEvent env1 subj path = true → CanAccessEvent env2 subj path = true := by
  intro h
  unfold CanAccessEvent at h ⊢
  rw [← h4]
  exact hA _ _ _ h

/-- Widening the access-control grants preserves success of the wildcard-event
loop. -/
theorem anyAccessibleEvent_mono (env1 env2 : Env)
    (h4 : env1.requiredPrivilegeForReadEvent = env2.requiredPrivilegeForReadEvent)
    (hA : AccessWidens env1.accessCheck env2.accessCheck)
    (subj : SubjectDescriptor) (e : EndpointId) (cid : ClusterId) (l : List EventId) :
    anyAccessibleEvent env1 subj e cid l = true → anyAccessibleEvent env2 subj e cid l = true := by
  induction l with
  | nil => simp [anyAccessibleEvent]
  | cons ev rest ih =>
    simp only [anyAccessibleEvent]
    intro h
    by_cases h2 : CanAccessEvent env2 subj ⟨e, cid, ev⟩ = true
    · rw [if_pos h2]
    · rw [if_neg h2]
      apply ih
      by_cases hx : CanAccessEvent env1 subj ⟨e, cid, ev⟩ = true
      · exact absurd (canAccessEvent_mono env1 env2 h4 hA subj ⟨e, cid, ev⟩ hx) h2
      · rwa [if_neg hx] at h

/-- Widening the access-control grants preserves success of the cluster-level
resolver, for environments agreeing on the metadata flag and required
privileges. -/
theorem hasValidCluster_mono (env1 env2 : Env)
    (h0 : env1.eventListEnabled = env2.eventListEnabled)
    (h4 : env1.requiredPrivilegeForReadEvent = env2.requiredPrivilegeForReadEvent)
    (hA : AccessWidens env1.accessCheck env2.accessCheck)
    (e : EndpointId) (cl : EmberAfCluster) (p : EventPathParams)
    (subj : SubjectDescriptor) :
    HasValidEventPathForEndpointAndCluster env1 e cl p subj = true →
      HasValidEventPathForEndpointAndCluster env2 e cl p subj = true := by
  rcases p with ⟨mep, mc, me⟩
  cases me with
  | none =>
    simp only [HasValidEventPathForEndpointAndCluster]
    by_cases hE : env1.eventListEnabled = true
    · rw [if_pos hE, if_pos (h0 ▸ hE)]
      exact anyAccessibleEvent_mono env1 env2 h4 hA subj e cl.clusterId cl.eventList
    · rw [if_neg hE, if_neg (h0 ▸ hE)]
      intro h
      unfold CanAccessEventCoarse at h ⊢
      exact hA _ _ _ h
  | some ev =>
    simp only [HasValidEventPathForEndpointAndCluster]
    have hsup : ClusterSupportsEvent env1 cl ev = ClusterSupportsEvent env2 cl ev := by
      unfold ClusterSupportsEvent
      rw [h0]
    by_cases hS : ClusterSupportsEvent env1 cl ev = true
    · rw [if_pos hS, if_pos (hsup ▸ hS)]
      exact canAccessEvent_mono env1 env2 h4 hA subj ⟨e, cl.clusterId, ev⟩
    · rw [if_neg hS, if_neg (hsup ▸ hS)]
      exact fun h => h

/-- Widening the access-control grants preserves success of the
wildcard-cluster loop. -/
theorem anyClusterHasValidPath_mono (env1 env2 : Env)
    (h0 : env1.eventListEnabled = env2.eventListEnabled)
    (h4 : env1.requiredPrivilegeForReadEvent = env2.requiredPrivilegeForReadEvent)
    (hA : AccessWidens env1.accessCheck env2.accessCheck)
    (e : EndpointId) (p : EventPathParams) (subj : SubjectDescriptor)
    (l : List EmberAfCluster) :
    anyClusterHasValidPath env1 e p subj l = true →
      anyClusterHasValidPath env2 e p subj l = true := by
  induction l with
  | nil => simp [anyClusterHasValidPath]
  | cons cl rest ih =>
    simp only [anyClusterHasValidPath]
    intro h
    by_cases h2 : HasValidEventPathForEndpointAndCluster env2 e cl p subj = true
    · rw [if_pos h2]
    · rw [if_neg h2]
      apply ih
      by_cases hx : HasValidEventPathForEndpointAndCluster env1 e cl p subj = true
      · exact absurd (hasValidCluster_mono env1 env2 h0 h4 hA e cl p subj hx) h2
      · rwa [if_neg hx] at h

/-- Claim C7: for a fixed path specifier and fixed registry, widening the
subject's access-control grant set (every check that succeeded still
succeeds) can only change the resolution from false to true, never from true
to false. -/
theorem resolution_monotone (env1 env2 : Env)
    (h0 : env1.eventListEnabled = env2.eventListEnabled)
    (h1 : env1.findEndpointType = env2.findEndpointType)
    (h2 : env1.findServerCluster = env2.findServerCluster)
    (h4 : env1.requiredPrivilegeForReadEvent = env2.requiredPrivilegeForReadEvent)
    (hA : AccessWidens env1.accessCheck env2.accessCheck)
    (e : EndpointId) (p : EventPathParams) (subj : SubjectDescriptor) :
    HasValidEventPathForEndpoint env1 e p subj = true →
      HasValidEventPathForEndpoint env2 e p subj = true := by
  rcases p with ⟨mep, mc, me⟩
  cases mc with
  | none =>
    simp only [HasValidEventPathForEndpoint]
    rw [← h1]
    cases hft : env1.findEndpointType e with
    | none => exact fun h => h
    | some et => exact anyClusterHasValidPath_mono env1 env2 h0 h4 hA e ⟨mep, none, me⟩ subj et.cluster
  | some c =>
    simp only [HasValidEventPathForEndpoint]
    rw [← h2]
    cases hfs : env1.findServerCluster e c with
    | none => exact fun h => h
    | some cl => exact hasValidCluster_mono env1 env2 h0 h4 hA e cl ⟨mep, some c, me⟩ subj

/-- Witness for C7: widening from the deny-all policy to the allow-all policy
over the same registry. -/
theorem resolution_monotone_witness :
    testEnvDeny.eventListEnabled = testEnvAllow.eventListEnabled ∧
      testEnvDeny.findEndpointType = testEnvAllow.findEndpointType ∧
      testEnvDeny.findServerCluster = testEnvAllow.findServerCluster ∧
      testEnvDeny.requiredPrivilegeForReadEvent = testEnvAllow.requiredPrivilegeForReadEvent ∧
      AccessWidens testEnvDeny.accessCheck testEnvAllow.accessCheck ∧
      (HasValidEventPathForEndpoint testEnvDeny 1 ⟨some 1, some 6, some 2⟩ testSubject = true →
        HasValidEventPathForEndpoint testEnvAllow 1 ⟨some 1, some 6, some 2⟩ testSubject = true) := by
  have hw : AccessWidens testEnvDeny.accessCheck testEnvAllow.accessCheck := by
    intro s p pr h
    simp [testEnvDeny, denyAll] at h
  exact ⟨rfl, rfl, rfl, rfl, hw,
    resolution_monotone testEnvDeny testEnvAllow rfl rfl rfl rfl hw 1
      ⟨some 1, some 6, some 2⟩ testSubject⟩

/-- Claim C8: with a registry whose endpoint 1 lists a client-only cluster 6
declaring event 0 (present in the endpoint's cluster list but not returned by
the server-cluster lookup), a wildcard-cluster specifier resolves to true
while the same specifier with the concrete cluster id 6 resolves to false:
the wildcard loop iterates every listed cluster whereas a concrete id goes
through the server-cluster-only lookup. -/
theorem client_only_cluster_divergence :
    HasValidEventPathForEndpoint envClientOnly 1 ⟨some 1, none, none⟩ testSubject = true ∧
      HasValidEventPathForEndpoint envClientOnly 1 ⟨some 1, some 6, none⟩ testSubject = false :=
  ⟨rfl, rfl⟩

/-- Claim C9: when the build carries no event-list metadata, the existence
check reports true for every event id, so a concrete event specifier over a
found cluster — including an id the cluster never declares — resolves to
exactly the precise per-event access check at that event's computed required
privilege. -/
theorem degraded_concrete_event_eq_precise (env : Env)
    (hE : env.eventListEnabled = false) :
    (∀ cl ev, ClusterSupportsEvent env cl ev = true) ∧
      ∀ e c cl ev subj mep, env.findServerCluster e c = some cl →
        HasValidEventPathForEndpoint env e ⟨mep, some c, some ev⟩ subj =
          CanAccessEvent env subj ⟨e, cl.clusterId, ev⟩ := by
  have hsup : ∀ cl ev, ClusterSupportsEvent env cl ev = true := by
    intro cl ev
    simp [ClusterSupportsEvent, hE]
  refine ⟨hsup, ?_⟩
  intro e c cl ev subj mep hfs
  simp only [HasValidEventPathForEndpoint, hfs]
  simp only [HasValidEventPathForEndpointAndCluster]
  rw [if_pos (hsup cl ev)]

/-- Witness for C9 at a concrete degraded-mode environment. -/
theorem degraded_concrete_event_eq_precise_witness :
    testEnvDeg.eventListEnabled = false ∧
      ((∀ cl ev, ClusterSupportsEvent testEnvDeg cl ev = true) ∧
        ∀ e c cl ev subj mep, testEnvDeg.findServerCluster e c = some cl →
          HasValidEventPathForEndpoint testEnvDeg e ⟨mep, some c, some ev⟩ subj =
            CanAccessEvent testEnvDeg subj ⟨e, cl.clusterId, ev⟩) :=
  ⟨rfl, degraded_concrete_event_eq_precise testEnvDeg rfl⟩

/-- Claim C10: two runs over environments with the same metadata flag,
registry lookups, required-privilege computation, and access-control
decisions resolve every (endpoint, path, subject) triple identically: the
resolver consults no state other than these inputs. -/
theorem resolution_deterministic (env1 env2 : Env)
    (h0 : env1.eventListEnabled = env2.eventListEnabled)
    (h1 : env1.findEndpointType = env2.findEndpointType)
    (h2 : env1.findServerCluster = env2.findServerCluster)
    (h3 : env1.accessCheck = env2.accessCheck)
    (h4 : env1.requiredPrivilegeForReadEvent = env2.requiredPrivilegeForReadEvent) :
    ∀ e p subj, HasValidEventPathForEndpoint env1 e p subj =
      HasValidEventPathForEndpoint env2 e p subj := by
  cases env1
  cases env2
  dsimp only at h0 h1 h2 h3 h4
  subst h0 h1 h2 h3 h4
  intro e p subj
  rfl

/-- Witness for C10: two definitionally separate but componentwise equal
environments. -/
theorem resolution_deterministic_witness :
    testEnvAllow.eventListEnabled = testEnvAllowCopy.eventListEnabled ∧
      testEnvAllow.findEndpointType = testEnvAllowCopy.findEndpointType ∧
      testEnvAllow.findServerCluster = testEnvAllowCopy.findServerCluster ∧
      testEnvAllow.accessCheck = testEnvAllowCopy.accessCheck ∧
      testEnvAllow.requiredPrivilegeForReadEvent = testEnvAllowCopy.requiredPrivilegeForReadEvent ∧
      HasValidEventPathForEndpoint testEnvAllow 1 ⟨some 1, some 6, some 2⟩ testSubject =
        HasValidEventPathForEndpoint testEnvAllowCopy 1 ⟨some 1, some 6, some 2⟩ testSubject :=
  ⟨rfl, rfl, rfl, rfl, rfl,
    resolution_deterministic testEnvAllow testEnvAllowCopy rfl rfl rfl rfl rfl 1
      ⟨some 1, some 6, some 2⟩ testSubject⟩

end EventPathValidity
